import Mathlib

/-!
Shallow embedding of `src/student_management.py` (class `StudentManagementSystem`).

Records are Python dicts with string keys and string values, modelled as
association lists that preserve insertion order (`Record`).  The file system is
an association list from path to raw file text, so both on-disk encodings
(CSV text and JSON text) are modelled at the byte level the way the Python
code actually reads and writes them.  Python exceptions become an error
inductive (`PyErr`); each constructor is mapped to the concrete Python
exception it stands for in its doc comment.
-/

deriving instance DecidableEq for Except

/-- Python dict with string keys/values: ordered association list.
Keys are unique in every dict the program builds. -/
abbrev Record := List (String × String)

/-- Python `d[k]` as an `Option`: `none` models a `KeyError`. -/
def rget : Record → String → Option String
  | [], _ => none
  | (k, v) :: rest, q => if k = q then some v else rget rest q

/-- Keys of a record, in order (Python `d.keys()`). -/
def keysOf (r : Record) : List String := r.map Prod.fst

/-- Python `d[k] = v`: overwrite in place if the key exists, else append. -/
def dictSet : Record → String → String → Record
  | [], k, v => [(k, v)]
  | (k0, v0) :: rest, k, v =>
    if k0 = k then (k0, v) :: rest else (k0, v0) :: dictSet rest k v

/-- Python `d.update(patch)`: apply `dictSet` for each patch pair in order. -/
def dictUpdate (r : Record) (patch : Record) : Record :=
  patch.foldl (fun acc kv => dictSet acc kv.1 kv.2) r

/-- Python `del d[k]`: `KeyError` (modelled as `none`) if the key is absent. -/
def delKey : Record → String → Option Record
  | [], _ => none
  | (k0, v0) :: rest, k =>
    if k0 = k then some rest
    else (delKey rest k).map (fun r => (k0, v0) :: r)

/-- Whitespace stripped by Python `str.strip()` (the ASCII part; the program
only ever strips numeric input strings). -/
def isPyWs (c : Char) : Bool :=
  c = ' ' || c = '\t' || c = '\n' || c = '\r' || c = Char.ofNat 11 || c = Char.ofNat 12

/-- Digit run of a Python integer literal body: digits with single
underscores allowed between digits (`int("1_0") = 10`). -/
def digitsLoop (acc : Nat) : List Char → Option Nat
  | [] => some acc
  | '_' :: c :: rest =>
    if c.isDigit then digitsLoop (acc * 10 + (c.toNat - 48)) rest else none
  | '_' :: [] => none
  | c :: rest =>
    if c.isDigit then digitsLoop (acc * 10 + (c.toNat - 48)) rest else none

/-- Nonempty digit run; must start with a digit, not an underscore. -/
def digitsU : List Char → Option Nat
  | [] => none
  | c :: rest => if c.isDigit then digitsLoop (c.toNat - 48) rest else none

/-- Python `int(s)` on a string: strip whitespace, optional sign, decimal
digits (underscores between digits allowed); `none` models `ValueError`.
Non-ASCII digits are outside the model. -/
def pyInt (s : String) : Option Int :=
  let t := ((s.data.dropWhile isPyWs).reverse.dropWhile isPyWs).reverse
  match t with
  | '+' :: rest => (digitsU rest).map (fun n => (n : Int))
  | '-' :: rest => (digitsU rest).map (fun n => -(n : Int))
  | l => (digitsU l).map (fun n => (n : Int))

/-- List-of-chars starts-with test. -/
def isPreOf : List Char → List Char → Bool
  | [], _ => true
  | _ :: _, [] => false
  | a :: as, b :: bs => a == b && isPreOf as bs

/-- Substring occurrence on char lists. -/
def subOccurs (needle : List Char) : List Char → Bool
  | [] => isPreOf needle []
  | c :: t => isPreOf needle (c :: t) || subOccurs needle t

/-- Python `sub in hay` on strings: substring containment. -/
def strContains (hay sub : String) : Bool := subOccurs sub.data hay.data

/-- Python `str.lower()`: character-wise lowercasing (ASCII model; the
program only lowercases column names, extensions and search text). -/
def pyLower (s : String) : String := String.mk (s.data.map Char.toLower)

/-! ### CSV model (Python `csv` module, default dialect, as the program uses it)

The program writes with `csv.writer`/`csv.DictWriter` on files opened with
`newline=''` (so the default `\r\n` line terminator lands in the file
verbatim) and reads with `csv.DictReader` on files opened in text mode (so
universal-newline translation makes `\r\n`, `\r` and `\n` all end a line).
-/

/-- Concatenation of a list of strings (sequential writes to a file). -/
def strConcat : List String → String
  | [] => ""
  | a :: l => a ++ strConcat l

/-- Does a field need quoting under `QUOTE_MINIMAL`? (contains the delimiter,
the quote char, or a line-terminator character). -/
def fieldNeedsQuote (f : String) : Bool :=
  f.data.any (fun c => c = ',' || c = '"' || c = '\r' || c = '\n')

/-- Double every quote char (CSV `doublequote` escaping). -/
def escQuotes : List Char → List Char
  | [] => []
  | '"' :: rest => '"' :: '"' :: escQuotes rest
  | c :: rest => c :: escQuotes rest

/-- Serialize one CSV field with minimal quoting. -/
def formatField (f : String) : String :=
  if fieldNeedsQuote f then "\"" ++ String.mk (escQuotes f.data) ++ "\"" else f

/-- Serialize one CSV row, `\r\n`-terminated (Python `csv.writer.writerow`). -/
def formatRow (row : List String) : String :=
  String.intercalate "," (row.map formatField) ++ "\r\n"

/-- Serialize a whole CSV file from its rows. -/
def csvWriteText (rows : List (List String)) : String :=
  strConcat (rows.map formatRow)

/-- Parser state of the CSV reader's field scanner. -/
inductive CsvMode
  | lineStart
  | fieldStart
  | inField
  | inQuotes
  | afterQuote
deriving DecidableEq

/-- Character-level scanner of Python's `csv.reader` (default dialect:
delimiter `,`, quote char `"`, doublequote on, non-strict).  A quote is
special only at field start; a doubled quote inside quotes is a literal
quote; a blank line yields an empty row.  `\r\n`, `\r` and `\n` all end a
row outside quotes (universal-newline read mode). -/
def csvScan : CsvMode → List Char → List String → List (List String) → List Char → List (List String)
  | .lineStart, _, _, rows, [] => rows
  | _, cur, row, rows, [] => rows ++ [row ++ [String.mk cur]]
  | .inQuotes, cur, row, rows, '"' :: '"' :: rest => csvScan .inQuotes (cur ++ ['"']) row rows rest
  | .inQuotes, cur, row, rows, '"' :: rest => csvScan .afterQuote cur row rows rest
  | .inQuotes, cur, row, rows, c :: rest => csvScan .inQuotes (cur ++ [c]) row rows rest
  | .lineStart, _, _, rows, '\r' :: '\n' :: rest => csvScan .lineStart [] [] (rows ++ [[]]) rest
  | .lineStart, _, _, rows, '\r' :: rest => csvScan .lineStart [] [] (rows ++ [[]]) rest
  | .lineStart, _, _, rows, '\n' :: rest => csvScan .lineStart [] [] (rows ++ [[]]) rest
  | _, cur, row, rows, '\r' :: '\n' :: rest => csvScan .lineStart [] [] (rows ++ [row ++ [String.mk cur]]) rest
  | _, cur, row, rows, '\r' :: rest => csvScan .lineStart [] [] (rows ++ [row ++ [String.mk cur]]) rest
  | _, cur, row, rows, '\n' :: rest => csvScan .lineStart [] [] (rows ++ [row ++ [String.mk cur]]) rest
  | .lineStart, _, _, rows, ',' :: rest => csvScan .fieldStart [] [""] rows rest
  | .fieldStart, _, row, rows, ',' :: rest => csvScan .fieldStart [] (row ++ [""]) rows rest
  | .inField, cur, row, rows, ',' :: rest => csvScan .fieldStart [] (row ++ [String.mk cur]) rows rest
  | .afterQuote, cur, row, rows, ',' :: rest => csvScan .fieldStart [] (row ++ [String.mk cur]) rows rest
  | .lineStart, _, _, rows, '"' :: rest => csvScan .inQuotes [] [] rows rest
  | .fieldStart, _, row, rows, '"' :: rest => csvScan .inQuotes [] row rows rest
  | .afterQuote, cur, row, rows, '"' :: rest => csvScan .inQuotes cur row rows rest
  | .lineStart, _, _, rows, c :: rest => csvScan .inField [c] [] rows rest
  | .fieldStart, _, row, rows, c :: rest => csvScan .inField [c] row rows rest
  | .inField, cur, row, rows, c :: rest => csvScan .inField (cur ++ [c]) row rows rest
  | .afterQuote, cur, row, rows, c :: rest => csvScan .inField (cur ++ [c]) row rows rest

/-- All rows of a CSV file text (Python `list(csv.reader(file))`). -/
def csvReadRows (s : String) : List (List String) :=
  csvScan .lineStart [] [] [] s.data

/-- Pair field names with one row's values (the dict `csv.DictReader` builds
for one row).  Missing trailing values get the reader's `restval`, modelled
as the empty string; extra values beyond the field names sit under the
`None` rest key in Python, which the program never reads, so they are
dropped. -/
def zipRecord : List String → List String → Record
  | [], _ => []
  | f :: fs, [] => (f, "") :: zipRecord fs []
  | f :: fs, v :: vs => (f, v) :: zipRecord fs vs

/-- Python `list(csv.DictReader(file))`: first row is the header
(field names); blank rows are skipped; every other row becomes a record. -/
def dictReaderRecords (content : String) : List Record :=
  match csvReadRows content with
  | [] => []
  | fns :: rest => (rest.filter (fun r => !r.isEmpty)).map (zipRecord fns)

/-! ### JSON model (Python `json` module, as the program uses it)

`write_json_file` dumps a list of string-valued objects with `indent=2`;
`read_json_file` loads it back.  The parser below is restricted to what the
store's data model holds — an array of flat objects with string keys and
string values — which covers every file this program writes and the
externally edited files the claims are about.  (Python's loader also accepts
other JSON values; those are outside the model.)
-/

/-- Escape one character for a JSON string (the escapes `json.dump` emits for
the characters that can occur in this store's string data). -/
def jsonEscChar (c : Char) : String :=
  if c = '"' then "\\\""
  else if c = '\\' then "\\\\"
  else if c = '\n' then "\\n"
  else if c = '\r' then "\\r"
  else if c = '\t' then "\\t"
  else String.mk [c]

/-- JSON string literal for `s`. -/
def jsonStr (s : String) : String :=
  "\"" ++ strConcat (s.data.map jsonEscChar) ++ "\""

/-- One object of the dumped array, indented as a list element
(`json.dump(..., indent=2)` layout). -/
def jsonObjText (r : Record) : String :=
  if r.isEmpty then "  \x7b\x7d"
  else
    "  \x7b\n"
      ++ String.intercalate ",\n"
          (r.map (fun kv => "    " ++ jsonStr kv.1 ++ ": " ++ jsonStr kv.2))
      ++ "\n  \x7d"

/-- Python `json.dump(records, file, indent=2)`.  An empty array dumps as
`[]` with or without `indent`, so this also covers the `json.dump([], file)`
used when a new file is created. -/
def jsonDumpRecords (rs : List Record) : String :=
  if rs.isEmpty then "[]"
  else "[\n" ++ String.intercalate ",\n" (rs.map jsonObjText) ++ "\n]"

/-- Skip JSON whitespace. -/
def skipWs : List Char → List Char
  | [] => []
  | c :: rest =>
    if c = ' ' || c = '\t' || c = '\n' || c = '\r' then skipWs rest else c :: rest

/-- Unescape one JSON string escape character. -/
def jsonUnesc (e : Char) : Option Char :=
  if e = '"' then some '"'
  else if e = '\\' then some '\\'
  else if e = '/' then some '/'
  else if e = 'n' then some '\n'
  else if e = 'r' then some '\r'
  else if e = 't' then some '\t'
  else if e = 'b' then some (Char.ofNat 8)
  else if e = 'f' then some (Char.ofNat 12)
  else none

/-- Body of a JSON string after the opening quote: returns the decoded
characters and the input after the closing quote. -/
def jstrBody : List Char → Option (List Char × List Char)
  | [] => none
  | '"' :: rest => some ([], rest)
  | '\\' :: e :: rest =>
    match jsonUnesc e with
    | none => none
    | some c => (jstrBody rest).map (fun p => (c :: p.1, p.2))
  | '\\' :: [] => none
  | c :: rest => (jstrBody rest).map (fun p => (c :: p.1, p.2))

/-- Entries of a JSON object (input positioned at the first key's quote or
later); fuel bounds the loop, one unit per entry. -/
def jEntriesLoop : Nat → List Char → Option (Record × List Char)
  | 0, _ => none
  | fuel + 1, l =>
    match skipWs l with
    | '"' :: rest =>
      match jstrBody rest with
      | none => none
      | some (k, r1) =>
        match skipWs r1 with
        | ':' :: r2 =>
          match skipWs r2 with
          | '"' :: r3 =>
            match jstrBody r3 with
            | none => none
            | some (v, r4) =>
              match skipWs r4 with
              | ',' :: r5 =>
                (jEntriesLoop fuel r5).map
                  (fun p => ((String.mk k, String.mk v) :: p.1, p.2))
              | '\x7d' :: r5 => some ([(String.mk k, String.mk v)], r5)
              | _ => none
          | _ => none
        | _ => none
    | _ => none

/-- One JSON object, input positioned right after its opening brace. -/
def jParseObj (fuel : Nat) (l : List Char) : Option (Record × List Char) :=
  match skipWs l with
  | '\x7d' :: rest => some ([], rest)
  | _ => jEntriesLoop fuel (skipWs l)

/-- Objects of a JSON array, input positioned right after `[` (nonempty
case); fuel bounds the loop, one unit per object. -/
def jArrLoop : Nat → List Char → Option (List Record × List Char)
  | 0, _ => none
  | fuel + 1, l =>
    match skipWs l with
    | '\x7b' :: rest =>
      match jParseObj fuel rest with
      | none => none
      | some (r, r1) =>
        match skipWs r1 with
        | ',' :: r2 => (jArrLoop fuel r2).map (fun p => (r :: p.1, p.2))
        | ']' :: r2 => some ([r], r2)
        | _ => none
    | _ => none

/-- Python `json.load` restricted to an array of flat string-valued objects;
`none` models `json.JSONDecodeError` (or a value shape outside the model). -/
def jsonParseRecords (s : String) : Option (List Record) :=
  match skipWs s.data with
  | '[' :: rest =>
    match skipWs rest with
    | ']' :: r1 => if (skipWs r1).isEmpty then some [] else none
    | _ =>
      match jArrLoop (s.length + 1) rest with
      | none => none
      | some (rs, r1) => if (skipWs r1).isEmpty then some rs else none
  | _ => none

/-! ### Store state, file system and errors -/

/-- Python exceptions the program can raise, one constructor per distinct
raise site / library exception:
* `missingField` — `ValueError("All fields ... are required")`
* `invalidId` — `ValueError("ID must be a non-empty string")`
* `invalidName` — `ValueError("Name must be a non-empty string")`
* `invalidAge` — `ValueError("Age must be a valid number")`; the in-range
  check's own `ValueError` is caught by the surrounding `except ValueError`
  and re-raised with this message, so both bad-parse and out-of-range age
  surface here
* `invalidGrade` — `ValueError("Grade must be one of: A, B, C, D, F")`
* `invalidFormat` — `ValueError("File must be either CSV or JSON format")`
* `notConfigured` — `ValueError("File path not set. Call set_file_path() first")`
* `typeErr` — `TypeError` from passing `None` where a path is expected
  (`open(None)`, `os.path.getsize(None)`)
* `fileNotFound` — `FileNotFoundError` from `open`/`os.path.getsize` on a
  missing file
* `keyErr` — `KeyError` from `d[k]` / `del d[k]` on a missing key
* `extraKeyErr` — `ValueError("dict contains fields not in fieldnames")`
  from `csv.DictWriter`
* `jsonDecodeErr` — `json.JSONDecodeError` (or a JSON value outside the
  string-valued model) -/
inductive PyErr
  | missingField
  | invalidId
  | invalidName
  | invalidAge
  | invalidGrade
  | invalidFormat
  | notConfigured
  | typeErr
  | fileNotFound
  | keyErr
  | extraKeyErr
  | jsonDecodeErr
deriving DecidableEq

/-- Mutable state of a `StudentManagementSystem` instance. -/
structure Sms where
  headers : List String
  filename : Option String
  fileType : Option String
deriving DecidableEq

/-- File system: map from absolute path to raw file text. -/
abbrev Fs := List (String × String)

/-- Content of the file at `p`, if it exists. -/
def fsLookup : Fs → String → Option String
  | [], _ => none
  | (q, c) :: rest, p => if q = p then some c else fsLookup rest p

/-- Write (create or overwrite) the file at `p`. -/
def fsSet : Fs → String → String → Fs
  | [], p, c => [(p, c)]
  | (q, c0) :: rest, p, c =>
    if q = p then (q, c) :: rest else (q, c0) :: fsSet rest p c

/-- Result of one operation: the Python return/print outcome or the
propagated exception, together with the instance state and file system at
that moment (state mutated before a raise is kept, as in Python). -/
inductive StepR (α : Type)
  | ok (v : α) (s : Sms) (fs : Fs)
  | err (e : PyErr) (s : Sms) (fs : Fs)
deriving DecidableEq

/-- Instance state of the operation result. -/
def StepR.state {α : Type} : StepR α → Sms
  | .ok _ s _ => s
  | .err _ s _ => s

/-- File system of the operation result. -/
def StepR.fsys {α : Type} : StepR α → Fs
  | .ok _ _ fs => fs
  | .err _ _ fs => fs

/-- Default columns set in `__init__`. -/
def defaultHeaders : List String := ["id", "name", "age", "grade"]

/-- `self.default_filename`. -/
def defaultFilename : String := "students.csv"

/-- State after `StudentManagementSystem.__init__`. -/
def initSms : Sms := { headers := defaultHeaders, filename := none, fileType := none }

/-- Python truthiness test `not self.filename`: `None` or the empty string. -/
def isUnset : Option String → Bool
  | none => true
  | some p => p == ""

/-- Model of `Path.cwd()`, the process working directory. -/
def cwd : String := "/app"

/-- Name component of a path (after the last `/`); `os.makedirs` side
effects on the directory part are not modelled. -/
def nameOf (p : String) : String :=
  String.mk ((p.data.reverse.takeWhile (fun c => c ≠ '/')).reverse)

/-- `pathlib.PurePath.suffix`: from the last dot of the name, unless the dot
is the name's first or last character. -/
def suffixOf (nm : String) : String :=
  match (nm.data.reverse).span (fun c => c ≠ '.') with
  | (_, []) => ""
  | ([], _) => ""
  | (revExt, '.' :: before) =>
    if before.isEmpty then "" else String.mk ('.' :: revExt.reverse)
  | (_, _) => ""

/-- Resolve the `set_file_path` argument the way the method does: empty or
missing input falls back to `default_filename`, relative paths are joined
onto the working directory. -/
def resolveInput (fp : Option String) : String :=
  let chosen :=
    match fp with
    | none => defaultFilename
    | some q => if q = "" then defaultFilename else q
  if chosen.data.head? = some '/' then chosen else cwd ++ "/" ++ chosen

/-- Open the bound file for reading: `TypeError` when no path is bound,
`FileNotFoundError` when the file is absent.  Also models
`os.path.getsize` on the same arguments. -/
def openRead (s : Sms) (fs : Fs) : Except PyErr String :=
  match s.filename with
  | none => .error .typeErr
  | some p =>
    match fsLookup fs p with
    | some c => .ok c
    | none => .error .fileNotFound

/-! ### Operations of `StudentManagementSystem` -/

/-- `set_file_path(file_path)`: fall back to the default name, resolve to an
absolute path, reject unknown extensions, then bind the path/format and
create the file if it does not exist (CSV: header-only; JSON: `[]`). -/
def set_file_path (s : Sms) (fs : Fs) (fp : Option String) : StepR Unit :=
  let p := resolveInput fp
  let suf := pyLower (suffixOf (nameOf p))
  if suf ≠ ".csv" ∧ suf ≠ ".json" then .err .invalidFormat s fs
  else
    let s1 : Sms := { s with filename := some p, fileType := some suf }
    match fsLookup fs p with
    | some _ => .ok () s1 fs
    | none =>
      .ok () s1 (fsSet fs p (if suf = ".csv" then csvWriteText [s.headers] else "[]"))

/-- `validate_student_data(student_data)`.  Values are strings throughout
the program, so the `isinstance(..., str)` checks are identically true. -/
def validate_student_data (headers : List String) (d : Record) : Except PyErr Unit :=
  if !(headers.all (fun k => (rget d k).isSome)) then .error .missingField
  else
    match rget d "id" with
    | none => .error .keyErr
    | some vid =>
      if vid = "" then .error .invalidId
      else
        match rget d "name" with
        | none => .error .keyErr
        | some vnm =>
          if vnm = "" then .error .invalidName
          else
            match rget d "age" with
            | none => .error .keyErr
            | some va =>
              match pyInt va with
              | none => .error .invalidAge
              | some a =>
                if !(5 ≤ a ∧ a ≤ 100) then .error .invalidAge
                else
                  match rget d "grade" with
                  | none => .error .keyErr
                  | some vg =>
                    if vg = "A" ∨ vg = "B" ∨ vg = "C" ∨ vg = "D" ∨ vg = "F"
                    then .ok ()
                    else .error .invalidGrade

/-- `csv.DictWriter._dict_to_list`: reject keys outside the field names,
then lay the values out in field-name order (`restval ''` for absent keys). -/
def dictWriterRow (fieldnames : List String) (d : Record) : Except PyErr (List String) :=
  if d.any (fun kv => !fieldnames.contains kv.1) then .error .extraKeyErr
  else .ok (fieldnames.map (fun h => (rget d h).getD ""))

/-- `csv.DictWriter.writerows`: serialize records one at a time; an
extra-key `ValueError` at some record leaves the rows before it written
(the file was already truncated by `open(..., 'w')`). -/
def writeRowsSeq (fieldnames : List String) : List Record → String × Option PyErr
  | [] => ("", none)
  | r :: rest =>
    match dictWriterRow fieldnames r with
    | .error e => ("", some e)
    | .ok row =>
      let tail := writeRowsSeq fieldnames rest
      (formatRow row ++ tail.1, tail.2)

/-- `read_json_file()`: empty file means `[]`, otherwise `json.load`. -/
def read_json_file (s : Sms) (fs : Fs) : Except PyErr (List Record) :=
  match openRead s fs with
  | .error e => .error e
  | .ok c =>
    if c = "" then .ok []
    else
      match jsonParseRecords c with
      | some rs => .ok rs
      | none => .error .jsonDecodeErr

/-- The load step shared verbatim by `view_all_students`,
`view_specific_columns` and `search_students`: CSV files go through
`csv.DictReader`, anything else through `read_json_file`. -/
def loadStudents (s : Sms) (fs : Fs) : Except PyErr (List Record) :=
  if s.fileType = some ".csv" then (openRead s fs).map dictReaderRecords
  else read_json_file s fs

/-- `add_student(student_data)`: guard the path, validate, then append
(CSV: `DictWriter.writerow` in append mode; JSON: read, append, dump). -/
def add_student (s : Sms) (fs : Fs) (d : Record) : StepR Unit :=
  if isUnset s.filename then .err .notConfigured s fs
  else
    match validate_student_data s.headers d with
    | .error e => .err e s fs
    | .ok () =>
      if s.fileType = some ".csv" then
        match s.filename with
        | none => .err .typeErr s fs
        | some p =>
          let old := (fsLookup fs p).getD ""
          match dictWriterRow s.headers d with
          | .error e => .err e s fs
          | .ok row => .ok () s (fsSet fs p (old ++ formatRow row))
      else
        match read_json_file s fs with
        | .error e => .err e s fs
        | .ok rs =>
          match s.filename with
          | none => .err .typeErr s fs
          | some p => .ok () s (fsSet fs p (jsonDumpRecords (rs ++ [d])))

/-- One display row `[student[h] for h in headers]`; `KeyError` if a column
is missing from the record. -/
def rowOf (hs : List String) (r : Record) : Except PyErr (List String) :=
  match hs with
  | [] => .ok []
  | h :: t =>
    match rget r h with
    | none => .error .keyErr
    | some v => (rowOf t r).map (fun vs => v :: vs)

/-- The `table_data` comprehension of `view_all_students` /
`search_students`. -/
def buildTable (hs : List String) : List Record → Except PyErr (List (List String))
  | [] => .ok []
  | r :: rest =>
    match rowOf hs r with
    | .error e => .error e
    | .ok row => (buildTable hs rest).map (fun t => row :: t)

/-- Outcome of a viewing operation: the distinct "No students found!"
signal, or the projected table rows. -/
inductive ViewRes
  | noStudents
  | table (rows : List (List String))
deriving DecidableEq

/-- `view_all_students()`: guard the path, load per format, then project
every record onto `self.headers`. -/
def view_all_students (s : Sms) (fs : Fs) : StepR ViewRes :=
  if isUnset s.filename then .err .notConfigured s fs
  else
    match loadStudents s fs with
    | .error e => .err e s fs
    | .ok [] => .ok .noStudents s fs
    | .ok rs =>
      match buildTable s.headers rs with
      | .error e => .err e s fs
      | .ok t => .ok (.table t) s fs

/-- `view_specific_columns(columns)`: no path guard; per record, keep the
requested columns the record actually has (silent skip). -/
def view_specific_columns (s : Sms) (fs : Fs) (cols : List String) : StepR ViewRes :=
  match loadStudents s fs with
  | .error e => .err e s fs
  | .ok [] => .ok .noStudents s fs
  | .ok rs =>
    .ok
      (.table
        (rs.map (fun r =>
          (cols.filter (fun c => (rget r c).isSome)).map
            (fun c => (rget r c).getD ""))))
      s fs

/-- The `for student in reader` loop body of `update_student`: look up
`student['id']` (`KeyError` if absent), merge the patch into matching
records, and report whether any matched. -/
def updScan (sid : String) (patch : Record) : List Record → Except PyErr (List Record × Bool)
  | [] => .ok ([], false)
  | r :: rest =>
    match rget r "id" with
    | none => .error .keyErr
    | some v =>
      match updScan sid patch rest with
      | .error e => .error e
      | .ok (rs, u) =>
        if v = sid then .ok (dictUpdate r patch :: rs, true)
        else .ok (r :: rs, u)

/-- `update_student(student_id, updated_data)`: no path guard.  CSV files
are re-read with `DictReader`, patched in memory, and rewritten (header plus
rows) only when some record matched; JSON files analogously via
`read_json_file` / `write_json_file`. -/
def update_student (s : Sms) (fs : Fs) (sid : String) (patch : Record) : StepR Bool :=
  if s.fileType = some ".csv" then
    match openRead s fs with
    | .error e => .err e s fs
    | .ok content =>
      match updScan sid patch (dictReaderRecords content) with
      | .error e => .err e s fs
      | .ok (students, updated) =>
        if updated then
          match s.filename with
          | none => .err .typeErr s fs
          | some p =>
            match writeRowsSeq s.headers students with
            | (txt, none) => .ok true s (fsSet fs p (formatRow s.headers ++ txt))
            | (txt, some e) => .err e s (fsSet fs p (formatRow s.headers ++ txt))
        else .ok false s fs
  else
    match read_json_file s fs with
    | .error e => .err e s fs
    | .ok rs =>
      match updScan sid patch rs with
      | .error e => .err e s fs
      | .ok (students, updated) =>
        if updated then
          match s.filename with
          | none => .err .typeErr s fs
          | some p => .ok true s (fsSet fs p (jsonDumpRecords students))
        else .ok false s fs

/-- The `for student in reader` loop body of `delete_student`: keep records
whose `student['id']` differs from the target, report whether any dropped. -/
def delScan (sid : String) : List Record → Except PyErr (List Record × Bool)
  | [] => .ok ([], false)
  | r :: rest =>
    match rget r "id" with
    | none => .error .keyErr
    | some v =>
      match delScan sid rest with
      | .error e => .error e
      | .ok (rs, d) =>
        if v ≠ sid then .ok (r :: rs, d) else .ok (rs, true)

/-- `delete_student(student_id)`: no path guard and no format branch — the
bound file is always read with `csv.DictReader` and, when something was
deleted, rewritten with `csv.DictWriter`, whatever `self.file_type` says. -/
def delete_student (s : Sms) (fs : Fs) (sid : String) : StepR Bool :=
  match openRead s fs with
  | .error e => .err e s fs
  | .ok content =>
    match delScan sid (dictReaderRecords content) with
    | .error e => .err e s fs
    | .ok (kept, deleted) =>
      if deleted then
        match s.filename with
        | none => .err .typeErr s fs
        | some p =>
          match writeRowsSeq s.headers kept with
          | (txt, none) => .ok true s (fsSet fs p (formatRow s.headers ++ txt))
          | (txt, some e) => .err e s (fsSet fs p (formatRow s.headers ++ txt))
      else .ok false s fs

/-- Outcome of `add_column`. -/
inductive AddColRes
  | conflict
  | added
deriving DecidableEq

/-- `add_column(column_name)`: lowercase the name; report a conflict if it
is already a header up to case; otherwise set the new key to `""` on every
record, append the header (before the rewrite), and rewrite per format. -/
def add_column (s : Sms) (fs : Fs) (nm : String) : StepR AddColRes :=
  let c := pyLower nm
  if (s.headers.map pyLower).contains c then .ok .conflict s fs
  else if s.fileType = some ".csv" then
    match openRead s fs with
    | .error e => .err e s fs
    | .ok content =>
      let recs := (dictReaderRecords content).map (fun r => dictSet r c "")
      let s1 : Sms := { s with headers := s.headers ++ [c] }
      match s.filename with
      | none => .err .typeErr s fs
      | some p =>
        match writeRowsSeq s1.headers recs with
        | (txt, none) => .ok .added s1 (fsSet fs p (formatRow s1.headers ++ txt))
        | (txt, some e) => .err e s1 (fsSet fs p (formatRow s1.headers ++ txt))
  else
    match read_json_file s fs with
    | .error e => .err e s fs
    | .ok rs =>
      let recs := rs.map (fun r => dictSet r c "")
      let s1 : Sms := { s with headers := s.headers ++ [c] }
      match s.filename with
      | none => .err .typeErr s fs
      | some p => .ok .added s1 (fsSet fs p (jsonDumpRecords recs))

/-- Outcome of `remove_column`. -/
inductive RemColRes
  | notFound
  | protectedCol
  | removed
deriving DecidableEq

/-- The `del student[column_name]` loop of `remove_column`. -/
def delKeyScan (nm : String) : List Record → Except PyErr (List Record)
  | [] => .ok []
  | r :: rest =>
    match delKey r nm with
    | none => .error .keyErr
    | some r1 => (delKeyScan nm rest).map (fun rs => r1 :: rs)

/-- `remove_column(column_name)`: soft-fail when the column is absent or is
`id`; otherwise — with no format branch — read the bound file with
`csv.DictReader`, drop the key from every record, remove the header, and
rewrite with `csv.DictWriter`. -/
def remove_column (s : Sms) (fs : Fs) (nm : String) : StepR RemColRes :=
  if !(s.headers.contains nm) then .ok .notFound s fs
  else if nm = "id" then .ok .protectedCol s fs
  else
    match openRead s fs with
    | .error e => .err e s fs
    | .ok content =>
      match delKeyScan nm (dictReaderRecords content) with
      | .error e => .err e s fs
      | .ok recs =>
        let s1 : Sms := { s with headers := s.headers.erase nm }
        match s.filename with
        | none => .err .typeErr s fs
        | some p =>
          match writeRowsSeq s1.headers recs with
          | (txt, none) => .ok .removed s1 (fsSet fs p (formatRow s1.headers ++ txt))
          | (txt, some e) => .err e s1 (fsSet fs p (formatRow s1.headers ++ txt))

/-- The per-record criteria test of `search_students`: every requested
field must be present and must contain the search term as a
case-insensitive substring (the loop's `break` is `List.all`). -/
def matchesCrit (r : Record) (crit : List (String × String)) : Bool :=
  crit.all (fun ft =>
    match rget r ft.1 with
    | none => false
    | some v => strContains (pyLower v) (pyLower ft.2))

/-- Outcome of `search_students`: the distinct "No students found!" signal,
or the matched records (in original order) with their display table. -/
inductive SearchRes
  | noStudents
  | found (rs : List Record) (table : List (List String))
deriving DecidableEq

/-- `search_students(search_criteria)`: guard the path, load per format,
filter by `matchesCrit`, and (when something matched) project the matches
onto `self.headers` for display. -/
def search_students (s : Sms) (fs : Fs) (crit : List (String × String)) : StepR SearchRes :=
  if isUnset s.filename then .err .notConfigured s fs
  else
    match loadStudents s fs with
    | .error e => .err e s fs
    | .ok [] => .ok .noStudents s fs
    | .ok rs =>
      let filtered := rs.filter (fun r => matchesCrit r crit)
      if filtered.isEmpty then .ok (.found [] []) s fs
      else
        match buildTable s.headers filtered with
        | .error e => .err e s fs
        | .ok t => .ok (.found filtered t) s fs

/-! ### General lemmas about the record and writer models -/

theorem rget_isSome_iff (r : Record) (k : String) :
    (rget r k).isSome = true ↔ k ∈ keysOf r := by
  induction r with
  | nil => simp [rget, keysOf]
  | cons kv rest ih =>
    obtain ⟨k0, v0⟩ := kv
    by_cases h : k0 = k
    · subst h; simp [rget, keysOf]
    · rw [show keysOf ((k0, v0) :: rest) = k0 :: keysOf rest from rfl, List.mem_cons,
        show rget ((k0, v0) :: rest) k = rget rest k from by simp [rget, h], ih]
      constructor
      · exact fun hm => Or.inr hm
      · rintro (hq | hm)
        · exact absurd hq.symm h
        · exact hm

theorem keysOf_zipRecord (fns : List String) : ∀ row, keysOf (zipRecord fns row) = fns := by
  induction fns with
  | nil => intro row; cases row <;> rfl
  | cons f fs ih =>
    intro row
    cases row with
    | nil => simp [zipRecord, keysOf] at ih ⊢; exact ih []
    | cons v vs => simp [zipRecord, keysOf] at ih ⊢; exact ih vs

theorem keysOf_dictSet_of_mem (r : Record) (k v : String) (h : k ∈ keysOf r) :
    keysOf (dictSet r k v) = keysOf r := by
  induction r with
  | nil => simp [keysOf] at h
  | cons kv rest ih =>
    obtain ⟨k0, v0⟩ := kv
    by_cases hk : k0 = k
    · simp [dictSet, hk, keysOf]
    · have hmem : k ∈ keysOf rest := by
        rw [show keysOf ((k0, v0) :: rest) = k0 :: keysOf rest from rfl, List.mem_cons] at h
        rcases h with h1 | h1
        · exact absurd h1.symm hk
        · exact h1
      simp only [dictSet, if_neg hk]
      show k0 :: keysOf (dictSet rest k v) = k0 :: keysOf rest
      rw [ih hmem]

theorem keysOf_dictUpdate (patch : Record) :
    ∀ r : Record, (∀ kv ∈ patch, kv.1 ∈ keysOf r) →
      keysOf (dictUpdate r patch) = keysOf r := by
  induction patch with
  | nil => intro r _; rfl
  | cons kv rest ih =>
    intro r h
    have h1 : kv.1 ∈ keysOf r := h kv (by simp)
    have e1 : keysOf (dictSet r kv.1 kv.2) = keysOf r := keysOf_dictSet_of_mem r kv.1 kv.2 h1
    have estep : dictUpdate r (kv :: rest) = dictUpdate (dictSet r kv.1 kv.2) rest := by
      simp [dictUpdate]
    rw [estep, ih (dictSet r kv.1 kv.2) (fun kv2 hm => by rw [e1]; exact h kv2 (by simp [hm]))]
    exact e1

theorem delScan_spec (sid : String) (recs : List Record)
    (h : ∀ r ∈ recs, (rget r "id").isSome = true) :
    delScan sid recs =
      .ok (recs.filter (fun r => !(rget r "id" == some sid)),
           recs.any (fun r => rget r "id" == some sid)) := by
  induction recs with
  | nil => rfl
  | cons r rest ih =>
    obtain ⟨v, hv⟩ := Option.isSome_iff_exists.mp (h r (by simp))
    have ihr := ih (fun r2 hm => h r2 (by simp [hm]))
    by_cases hvs : v = sid
    · subst hvs
      simp [delScan, hv, ihr]
    · simp [delScan, hv, ihr, hvs]

theorem updScan_spec (sid : String) (patch : Record) (recs : List Record)
    (h : ∀ r ∈ recs, (rget r "id").isSome = true) :
    updScan sid patch recs =
      .ok (recs.map (fun r => if rget r "id" == some sid then dictUpdate r patch else r),
           recs.any (fun r => rget r "id" == some sid)) := by
  induction recs with
  | nil => rfl
  | cons r rest ih =>
    obtain ⟨v, hv⟩ := Option.isSome_iff_exists.mp (h r (by simp))
    have ihr := ih (fun r2 hm => h r2 (by simp [hm]))
    by_cases hvs : v = sid
    · subst hvs
      simp [updScan, hv, ihr]
    · simp [updScan, hv, ihr, hvs]

theorem dictWriterRow_ok (fns : List String) (r : Record)
    (h : ∀ kv ∈ r, kv.1 ∈ fns) :
    dictWriterRow fns r = .ok (fns.map (fun k => (rget r k).getD "")) := by
  have hany : r.any (fun kv => !fns.contains kv.1) = false := by
    rw [List.any_eq_false]
    intro kv hm
    simp [h kv hm]
  unfold dictWriterRow
  rw [hany]
  simp

theorem writeRowsSeq_ok (fns : List String) (rs : List Record)
    (h : ∀ r ∈ rs, ∀ kv ∈ r, kv.1 ∈ fns) :
    writeRowsSeq fns rs =
      (strConcat (rs.map (fun r => formatRow (fns.map (fun k => (rget r k).getD "")))), none) := by
  induction rs with
  | nil => rfl
  | cons r rest ih =>
    have hr := dictWriterRow_ok fns r (h r (by simp))
    have ihr := ih (fun r2 hm => h r2 (by simp [hm]))
    simp [writeRowsSeq, hr, ihr, strConcat]

theorem rowOf_ok (hs : List String) (r : Record)
    (h : ∀ k ∈ hs, (rget r k).isSome = true) :
    rowOf hs r = .ok (hs.map (fun k => (rget r k).getD "")) := by
  induction hs with
  | nil => rfl
  | cons k t ih =>
    obtain ⟨v, hv⟩ := Option.isSome_iff_exists.mp (h k (by simp))
    simp [rowOf, hv, ih (fun k2 hm => h k2 (by simp [hm])), Except.map]

theorem rowOf_err (hs : List String) (r : Record)
    (h : ∃ k ∈ hs, rget r k = none) :
    rowOf hs r = .error .keyErr := by
  induction hs with
  | nil => simp at h
  | cons k0 t ih =>
    rcases h with ⟨k1, hk1, hnone⟩
    cases hv : rget r k0 with
    | none => simp [rowOf, hv]
    | some v =>
      rcases List.mem_cons.mp hk1 with h1 | h1
      · rw [h1] at hnone; rw [hnone] at hv; cases hv
      · simp [rowOf, hv, ih ⟨k1, h1, hnone⟩, Except.map]

theorem rowOf_error_is_keyErr (hs : List String) (r : Record) :
    ∀ e : PyErr, rowOf hs r = .error e → e = .keyErr := by
  induction hs with
  | nil => intro e h; simp [rowOf] at h
  | cons k t ih =>
    intro e h
    cases hv : rget r k with
    | none => rw [rowOf, hv] at h; cases h; rfl
    | some v =>
      rw [rowOf, hv] at h
      cases hrec : rowOf t r with
      | error e2 =>
        rw [hrec] at h
        simp [Except.map] at h
        rw [← h]
        exact ih e2 hrec
      | ok row => rw [hrec] at h; simp [Except.map] at h

theorem buildTable_ok (hs : List String) (rs : List Record)
    (h : ∀ r ∈ rs, ∀ k ∈ hs, (rget r k).isSome = true) :
    buildTable hs rs = .ok (rs.map (fun r => hs.map (fun k => (rget r k).getD ""))) := by
  induction rs with
  | nil => rfl
  | cons r rest ih =>
    simp [buildTable, rowOf_ok hs r (h r (by simp)), ih (fun r2 hm => h r2 (by simp [hm])),
      Except.map]

theorem buildTable_err (hs : List String) (rs : List Record)
    (h : ∃ r ∈ rs, ∃ k ∈ hs, rget r k = none) :
    buildTable hs rs = .error .keyErr := by
  induction rs with
  | nil => simp at h
  | cons r rest ih =>
    rcases h with ⟨r1, hr1, hmiss⟩
    rcases List.mem_cons.mp hr1 with h1 | h1
    · subst h1
      simp [buildTable, rowOf_err hs r1 hmiss]
    · cases hrow : rowOf hs r with
      | error e =>
        rw [rowOf_error_is_keyErr hs r e hrow] at hrow
        simp [buildTable, hrow]
      | ok row => simp [buildTable, hrow, ih ⟨r1, h1, hmiss⟩, Except.map]

/-! ### Claim theorems -/

theorem validate_eval (d : Record) (vid vnm va vg : String)
    (hid : rget d "id" = some vid) (hnm : rget d "name" = some vnm)
    (hage : rget d "age" = some va) (hgr : rget d "grade" = some vg)
    (hall : defaultHeaders.all (fun k => (rget d k).isSome) = true) :
    validate_student_data defaultHeaders d =
      (if vid = "" then .error .invalidId
       else if vnm = "" then .error .invalidName
       else
         match pyInt va with
         | none => .error .invalidAge
         | some a =>
           if !(5 ≤ a ∧ a ≤ 100) then .error .invalidAge
           else if vg = "A" ∨ vg = "B" ∨ vg = "C" ∨ vg = "D" ∨ vg = "F" then .ok ()
           else .error .invalidGrade) := by
  unfold validate_student_data
  rw [hall]
  simp only [Bool.not_true, Bool.false_eq_true, if_false, hid, hnm, hage, hgr]

/-- C1: over the default schema, validation of a record holding all four
columns succeeds exactly when id and name are nonempty, age parses to an
integer in [5,100], and grade is one of A,B,C,D,F; a record missing a
schema column fails with the missing-field error, and the four per-field
checks fail with their respective invalid-field errors, checked in the
order id, name, age, grade. -/
theorem C1_validate_default_schema (d : Record) :
    (¬ (∀ k ∈ defaultHeaders, (rget d k).isSome = true) →
        validate_student_data defaultHeaders d = .error .missingField) ∧
    ((∀ k ∈ defaultHeaders, (rget d k).isSome = true) →
      ((validate_student_data defaultHeaders d = .ok () ↔
          rget d "id" ≠ some "" ∧ rget d "name" ≠ some "" ∧
          (∃ a : Int, pyInt ((rget d "age").getD "") = some a ∧ 5 ≤ a ∧ a ≤ 100) ∧
          (rget d "grade").getD "" ∈ (["A", "B", "C", "D", "F"] : List String)) ∧
       (rget d "id" = some "" →
          validate_student_data defaultHeaders d = .error .invalidId) ∧
       (rget d "id" ≠ some "" → rget d "name" = some "" →
          validate_student_data defaultHeaders d = .error .invalidName) ∧
       (rget d "id" ≠ some "" → rget d "name" ≠ some "" →
          ¬ (∃ a : Int, pyInt ((rget d "age").getD "") = some a ∧ 5 ≤ a ∧ a ≤ 100) →
          validate_student_data defaultHeaders d = .error .invalidAge) ∧
       (rget d "id" ≠ some "" → rget d "name" ≠ some "" →
          (∃ a : Int, pyInt ((rget d "age").getD "") = some a ∧ 5 ≤ a ∧ a ≤ 100) →
          (rget d "grade").getD "" ∉ (["A", "B", "C", "D", "F"] : List String) →
          validate_student_data defaultHeaders d = .error .invalidGrade))) := by
  constructor
  · intro hmiss
    cases hall : defaultHeaders.all (fun k => (rget d k).isSome) with
    | true => exact absurd (fun k hk => List.all_eq_true.mp hall k hk) hmiss
    | false =>
      unfold validate_student_data
      rw [hall]
      simp
  · intro hall
    have hall2 : defaultHeaders.all (fun k => (rget d k).isSome) = true :=
      List.all_eq_true.mpr (fun k hk => hall k hk)
    obtain ⟨vid, hid⟩ := Option.isSome_iff_exists.mp (hall "id" (by decide))
    obtain ⟨vnm, hnm⟩ := Option.isSome_iff_exists.mp (hall "name" (by decide))
    obtain ⟨va, hage⟩ := Option.isSome_iff_exists.mp (hall "age" (by decide))
    obtain ⟨vg, hgr⟩ := Option.isSome_iff_exists.mp (hall "grade" (by decide))
    have veval := validate_eval d vid vnm va vg hid hnm hage hgr hall2
    by_cases h1 : vid = ""
    · have hv : validate_student_data defaultHeaders d = .error .invalidId := by
        rw [veval]; simp [h1]
      refine ⟨?_, ?_, ?_, ?_, ?_⟩
      · rw [hv]; simp [hid, h1]
      · intro _; exact hv
      · intro hne _; exact absurd (by rw [hid, h1]) hne
      · intro hne _ _; exact absurd (by rw [hid, h1]) hne
      · intro hne _ _ _; exact absurd (by rw [hid, h1]) hne
    · have hidne : rget d "id" ≠ some "" := by
        rw [hid]; exact fun hq => h1 (Option.some.inj hq)
      by_cases h2 : vnm = ""
      · have hv : validate_student_data defaultHeaders d = .error .invalidName := by
          rw [veval]; simp [h1, h2]
        refine ⟨?_, ?_, ?_, ?_, ?_⟩
        · rw [hv]; simp [hnm, h2]
        · intro hq; rw [hid] at hq; exact absurd (Option.some.inj hq) h1
        · intro _ _; exact hv
        · intro _ hne _; exact absurd (by rw [hnm, h2]) hne
        · intro _ hne _ _; exact absurd (by rw [hnm, h2]) hne
      · have hnmne : rget d "name" ≠ some "" := by
          rw [hnm]; exact fun hq => h2 (Option.some.inj hq)
        cases hpi : pyInt va with
        | none =>
          have hv : validate_student_data defaultHeaders d = .error .invalidAge := by
            rw [veval]; simp [h1, h2, hpi]
          have hnoage : ¬ ∃ a : Int,
              pyInt ((rget d "age").getD "") = some a ∧ 5 ≤ a ∧ a ≤ 100 := by
            rw [hage]; simp [hpi]
          refine ⟨?_, ?_, ?_, ?_, ?_⟩
          · rw [hv]
            constructor
            · intro hcontra; simp at hcontra
            · rintro ⟨_, _, hex, _⟩; exact absurd hex hnoage
          · intro hq; rw [hid] at hq; exact absurd (Option.some.inj hq) h1
          · intro _ hq; rw [hnm] at hq; exact absurd (Option.some.inj hq) h2
          · intro _ _ _; exact hv
          · intro _ _ hex _; exact absurd hex hnoage
        | some a =>
          by_cases hrange : 5 ≤ a ∧ a ≤ 100
          · have hex : ∃ b : Int,
                pyInt ((rget d "age").getD "") = some b ∧ 5 ≤ b ∧ b ≤ 100 := by
              rw [hage]; exact ⟨a, by simp [hpi], hrange.1, hrange.2⟩
            have hdec : decide (5 ≤ a ∧ a ≤ 100) = true := decide_eq_true hrange
            by_cases hg : vg = "A" ∨ vg = "B" ∨ vg = "C" ∨ vg = "D" ∨ vg = "F"
            · have hv : validate_student_data defaultHeaders d = .ok () := by
                rw [veval]; simp [h1, h2, hpi, hdec, hg]
              have hgm : (rget d "grade").getD "" ∈ (["A", "B", "C", "D", "F"] : List String) := by
                rw [hgr]; simpa using hg
              refine ⟨?_, ?_, ?_, ?_, ?_⟩
              · rw [hv]; exact iff_of_true rfl ⟨hidne, hnmne, hex, hgm⟩
              · intro hq; rw [hid] at hq; exact absurd (Option.some.inj hq) h1
              · intro _ hq; rw [hnm] at hq; exact absurd (Option.some.inj hq) h2
              · intro _ _ hne; exact absurd hex hne
              · intro _ _ _ hne; exact absurd hgm hne
            · have hv : validate_student_data defaultHeaders d = .error .invalidGrade := by
                rw [veval]; simp [h1, h2, hpi, hdec, hg]
              have hgm : (rget d "grade").getD "" ∉ (["A", "B", "C", "D", "F"] : List String) := by
                rw [hgr]; simpa using hg
              refine ⟨?_, ?_, ?_, ?_, ?_⟩
              · rw [hv]
                constructor
                · intro hcontra; simp at hcontra
                · rintro ⟨_, _, _, hmem⟩; exact absurd hmem hgm
              · intro hq; rw [hid] at hq; exact absurd (Option.some.inj hq) h1
              · intro _ hq; rw [hnm] at hq; exact absurd (Option.some.inj hq) h2
              · intro _ _ hne; exact absurd hex hne
              · intro _ _ _ _; exact hv
          · have hdec : decide (5 ≤ a ∧ a ≤ 100) = false := decide_eq_false hrange
            have hv : validate_student_data defaultHeaders d = .error .invalidAge := by
              rw [veval]; simp [h1, h2, hpi, hdec]
            have hnoage : ¬ ∃ b : Int,
                pyInt ((rget d "age").getD "") = some b ∧ 5 ≤ b ∧ b ≤ 100 := by
              rw [hage]
              rintro ⟨b, hb, h5, h100⟩
              rw [Option.getD_some] at hb
              rw [hpi] at hb
              exact hrange ⟨(Option.some.inj hb) ▸ h5, (Option.some.inj hb) ▸ h100⟩
            refine ⟨?_, ?_, ?_, ?_, ?_⟩
            · rw [hv]
              constructor
              · intro hcontra; simp at hcontra
              · rintro ⟨_, _, hex2, _⟩; exact absurd hex2 hnoage
            · intro hq; rw [hid] at hq; exact absurd (Option.some.inj hq) h1
            · intro _ hq; rw [hnm] at hq; exact absurd (Option.some.inj hq) h2
            · intro _ _ _; exact hv
            · intro _ _ hex _; exact absurd hex hnoage

/-- Witness for C1 at a concrete valid record. -/
theorem C1_validate_default_schema_witness :
    validate_student_data defaultHeaders
      [("id", "1"), ("name", "Ann"), ("age", "20"), ("grade", "A")] = .ok () := by
  have h :=
    (C1_validate_default_schema
      [("id", "1"), ("name", "Ann"), ("age", "20"), ("grade", "A")]).2 (by decide)
  exact h.1.mpr ⟨by decide, by decide, ⟨20, by decide, by decide, by decide⟩, by decide⟩

/-- C10: when the resolved path's lowercased extension is neither `.csv`
nor `.json`, `set_file_path` raises the invalid-format error before any
mutation: the bound path/format and the file system are unchanged and no
file is created. -/
theorem C10_set_file_path_invalid_ext (s : Sms) (fs : Fs) (fp : Option String)
    (h : pyLower (suffixOf (nameOf (resolveInput fp))) ≠ ".csv" ∧
         pyLower (suffixOf (nameOf (resolveInput fp))) ≠ ".json") :
    set_file_path s fs fp = .err .invalidFormat s fs := by
  unfold set_file_path
  rw [if_pos h]

/-- Witness for C10 at the concrete path `students.txt`. -/
theorem C10_set_file_path_invalid_ext_witness :
    set_file_path initSms [] (some "students.txt") = .err .invalidFormat initSms [] :=
  C10_set_file_path_invalid_ext initSms [] (some "students.txt") (by decide)

/-- C6: whenever `id` is a schema column (as it always is in reachable
states), `remove_column "id"` reports the protected-column outcome and
leaves the schema, the bound file and the whole file system unchanged,
whatever the store contents are. -/
theorem C6_remove_column_id_protected (s : Sms) (fs : Fs)
    (h : "id" ∈ s.headers) :
    remove_column s fs "id" = .ok .protectedCol s fs := by
  unfold remove_column
  have hc : s.headers.contains "id" = true := List.elem_eq_true_of_mem h
  rw [hc]
  simp

/-- Witness for C6 on the freshly initialized store. -/
theorem C6_remove_column_id_protected_witness :
    remove_column initSms [] "id" = .ok .protectedCol initSms [] :=
  C6_remove_column_id_protected initSms [] (by decide)

/-- C7: when a column with the given name already exists in the schema up
to lowercasing, `add_column` reports the conflict and leaves the schema,
every record and the whole file system unchanged — so a second call with a
name that collides case-insensitively is a no-op. -/
theorem C7_add_column_conflict (s : Sms) (fs : Fs) (nm : String)
    (h : (s.headers.map pyLower).contains (pyLower nm) = true) :
    add_column s fs nm = .ok .conflict s fs := by
  simp only [add_column]
  rw [h]
  simp

/-- Witness for C7: adding `Grade` when `grade` is already a column. -/
theorem C7_add_column_conflict_witness :
    add_column initSms [] "Grade" = .ok .conflict initSms [] :=
  C7_add_column_conflict initSms [] "Grade" (by decide)

/-- C5 counterexample: with no path bound, `update_student` fails with the
unstructured `TypeError` from `os.path.getsize(None)`, not with the
structured not-configured `ValueError` the claim promises for every
operation. -/
theorem C5_update_unconfigured_is_typeerror :
    update_student initSms [] "1" [("name", "x")] = .err .typeErr initSms [] ∧
    PyErr.typeErr ≠ PyErr.notConfigured :=
  ⟨by decide, by decide⟩

/-- C5 amended: before a path is bound, only `add_student`,
`view_all_students` and `search_students` guard and raise the structured
not-configured error; `update_student`, `delete_student`,
`view_specific_columns`, `add_column` (for a non-colliding name) and
`remove_column` (for a present, non-`id` name) reach the file layer with
the unset `None` path and fail with the unstructured `TypeError`. -/
theorem C5_unconfigured_behavior (s : Sms) (fs : Fs)
    (hfn : s.filename = none) (hft : s.fileType = none)
    (d : Record) (sid : String) (patch : Record) (cols : List String)
    (crit : List (String × String)) (nmA nmR : String)
    (hA : (s.headers.map pyLower).contains (pyLower nmA) = false)
    (hR : nmR ∈ s.headers) (hRid : nmR ≠ "id") :
    add_student s fs d = .err .notConfigured s fs ∧
    view_all_students s fs = .err .notConfigured s fs ∧
    search_students s fs crit = .err .notConfigured s fs ∧
    update_student s fs sid patch = .err .typeErr s fs ∧
    delete_student s fs sid = .err .typeErr s fs ∧
    view_specific_columns s fs cols = .err .typeErr s fs ∧
    add_column s fs nmA = .err .typeErr s fs ∧
    remove_column s fs nmR = .err .typeErr s fs := by
  refine ⟨?_, ?_, ?_, ?_, ?_, ?_, ?_, ?_⟩
  · simp [add_student, isUnset, hfn]
  · simp [view_all_students, isUnset, hfn]
  · simp [search_students, isUnset, hfn]
  · simp [update_student, hft, read_json_file, openRead, hfn]
  · simp [delete_student, openRead, hfn]
  · simp [view_specific_columns, loadStudents, hft, read_json_file, openRead, hfn]
  · have hA2 : ∀ x ∈ s.headers, ¬ pyLower x = pyLower nmA := by
      intro x hx hcontra
      have hmem : (s.headers.map pyLower).contains (pyLower nmA) = true :=
        List.elem_eq_true_of_mem (hcontra ▸ List.mem_map_of_mem pyLower hx)
      rw [hmem] at hA
      cases hA
    simp [add_column, hA, hft, read_json_file, openRead, hfn]
    exact hA2
  · have hc : s.headers.contains nmR = true := List.elem_eq_true_of_mem hR
    simp [remove_column, hc, hR, hRid, openRead, hfn]

/-- Witness for C5 on the freshly initialized store at concrete arguments. -/
theorem C5_unconfigured_behavior_witness :
    add_student initSms [] [("id", "1")] = .err .notConfigured initSms [] ∧
    view_all_students initSms [] = .err .notConfigured initSms [] ∧
    search_students initSms [] [("name", "a")] = .err .notConfigured initSms [] ∧
    update_student initSms [] "2" [("age", "30")] = .err .typeErr initSms [] ∧
    delete_student initSms [] "2" = .err .typeErr initSms [] ∧
    view_specific_columns initSms [] ["id", "name"] = .err .typeErr initSms [] ∧
    add_column initSms [] "hobby" = .err .typeErr initSms [] ∧
    remove_column initSms [] "grade" = .err .typeErr initSms [] :=
  C5_unconfigured_behavior initSms [] rfl rfl [("id", "1")] "2" [("age", "30")]
    ["id", "name"] [("name", "a")] "hobby" "grade" (by decide) (by decide) (by decide)

/-- C8: on a bound store that loads records, `search_students` returns
exactly the records for which every criterion's field is present and the
record's value contains the term as a case-insensitive substring, in their
original order (the result is a `filter` of the loaded sequence); and the
match predicate is equivalent to the claim's per-criterion formulation. -/
theorem C8_search_filter (s : Sms) (fs : Fs) (crit : List (String × String))
    (recs : List Record)
    (hset : isUnset s.filename = false)
    (hload : loadStudents s fs = .ok recs)
    (hne : recs ≠ [])
    (hkeys : ∀ r ∈ recs.filter (fun r => matchesCrit r crit),
        ∀ k ∈ s.headers, (rget r k).isSome = true) :
    (∃ t, search_students s fs crit =
        .ok (.found (recs.filter (fun r => matchesCrit r crit)) t) s fs) ∧
    (∀ r : Record, matchesCrit r crit = true ↔
        ∀ f tm : String, (f, tm) ∈ crit →
          ∃ v, rget r f = some v ∧ strContains (pyLower v) (pyLower tm) = true) := by
  constructor
  · cases recs with
    | nil => exact absurd rfl hne
    | cons r0 rest =>
      cases hfil : (r0 :: rest).filter (fun r => matchesCrit r crit) with
      | nil =>
        refine ⟨[], ?_⟩
        unfold search_students
        rw [hset, hload]
        simp only [hfil]
        rfl
      | cons m mrest =>
        refine ⟨(m :: mrest).map (fun r => s.headers.map (fun k => (rget r k).getD "")), ?_⟩
        unfold search_students
        rw [hset, hload]
        simp only [hfil]
        have hbt := buildTable_ok s.headers (m :: mrest) (by rw [← hfil]; exact hkeys)
        simp [hbt]
  · intro r
    rw [matchesCrit, List.all_eq_true]
    constructor
    · intro h f tm hm
      have hft := h (f, tm) hm
      cases hv : rget r f with
      | none => rw [hv] at hft; cases hft
      | some v => rw [hv] at hft; exact ⟨v, rfl, hft⟩
    · intro h ft hm
      obtain ⟨f, tm⟩ := ft
      obtain ⟨v, hv, hc⟩ := h f tm hm
      rw [hv]
      exact hc

/-- Witness for C8: the spec's own example — searching name for `an` over
Ann and Bob returns exactly the Ann record. -/
theorem C8_search_filter_witness :
    ∃ t, search_students
        { headers := defaultHeaders, filename := some "/app/students.csv",
          fileType := some ".csv" }
        [("/app/students.csv",
          csvWriteText [defaultHeaders, ["1", "Ann", "20", "A"], ["2", "Bob", "30", "B"]])]
        [("name", "an")]
      = .ok (.found [[("id", "1"), ("name", "Ann"), ("age", "20"), ("grade", "A")]] t)
          { headers := defaultHeaders, filename := some "/app/students.csv",
            fileType := some ".csv" }
          [("/app/students.csv",
            csvWriteText [defaultHeaders, ["1", "Ann", "20", "A"], ["2", "Bob", "30", "B"]])] := by
  obtain ⟨t, ht⟩ :=
    (C8_search_filter
      { headers := defaultHeaders, filename := some "/app/students.csv",
        fileType := some ".csv" }
      [("/app/students.csv",
        csvWriteText [defaultHeaders, ["1", "Ann", "20", "A"], ["2", "Bob", "30", "B"]])]
      [("name", "an")]
      [[("id", "1"), ("name", "Ann"), ("age", "20"), ("grade", "A")],
       [("id", "2"), ("name", "Bob"), ("age", "30"), ("grade", "B")]]
      (by decide) (by decide) (by decide) (by decide)).1
  exact ⟨t, ht⟩

/-- C9 counterexample: on a JSON store whose file holds one externally
added object missing the schema columns, `view_all_students` fails with a
`KeyError` instead of aligning the object to the schema — the loader does
not fill missing columns with empty strings, so the operation does not
succeed. -/
theorem C9_view_all_missing_key_keyerror :
    view_all_students
        { headers := defaultHeaders, filename := some "/app/students.json",
          fileType := some ".json" }
        [("/app/students.json", jsonDumpRecords [[("name", "Ann")]])]
      = .err .keyErr
          { headers := defaultHeaders, filename := some "/app/students.json",
            fileType := some ".json" }
          [("/app/students.json", jsonDumpRecords [[("name", "Ann")]])] := by
  decide

/-- C9 amended: the structured loader performs no schema alignment —
`read_json_file` returns the parsed objects verbatim (extra keys kept,
missing schema columns not filled), and whenever some loaded object lacks
some schema column, `view_all_students` propagates the `KeyError` raised
by the display projection instead of succeeding. -/
theorem C9_json_load_no_alignment (s : Sms) (fs : Fs) (p content : String)
    (objs : List Record)
    (hfn : s.filename = some p) (hp : p ≠ "")
    (hft : s.fileType = some ".json")
    (hc : fsLookup fs p = some content) (hcne : content ≠ "")
    (hparse : jsonParseRecords content = some objs)
    (hmiss : ∃ r ∈ objs, ∃ k ∈ s.headers, rget r k = none) :
    read_json_file s fs = .ok objs ∧
    view_all_students s fs = .err .keyErr s fs := by
  have hread : read_json_file s fs = .ok objs := by
    unfold read_json_file openRead
    rw [hfn]
    simp [hc, hcne, hparse]
  refine ⟨hread, ?_⟩
  have hset : isUnset s.filename = false := by
    rw [hfn]
    simp [isUnset, hp]
  have hload : loadStudents s fs = .ok objs := by
    unfold loadStudents
    rw [hft]
    simp [hread]
  cases objs with
  | nil => obtain ⟨r, hr, _⟩ := hmiss; cases hr
  | cons r0 rest =>
    unfold view_all_students
    rw [hset, hload]
    simp [buildTable_err s.headers (r0 :: rest) hmiss]

/-- Witness for C9 on a concrete JSON store with an object lacking the age
and grade columns. -/
theorem C9_json_load_no_alignment_witness :
    read_json_file
        { headers := defaultHeaders, filename := some "/app/students.json",
          fileType := some ".json" }
        [("/app/students.json", jsonDumpRecords [[("id", "9"), ("name", "Zed")]])]
      = .ok [[("id", "9"), ("name", "Zed")]] ∧
    view_all_students
        { headers := defaultHeaders, filename := some "/app/students.json",
          fileType := some ".json" }
        [("/app/students.json", jsonDumpRecords [[("id", "9"), ("name", "Zed")]])]
      = .err .keyErr
          { headers := defaultHeaders, filename := some "/app/students.json",
            fileType := some ".json" }
          [("/app/students.json", jsonDumpRecords [[("id", "9"), ("name", "Zed")]])] :=
  C9_json_load_no_alignment
    { headers := defaultHeaders, filename := some "/app/students.json",
      fileType := some ".json" }
    [("/app/students.json", jsonDumpRecords [[("id", "9"), ("name", "Zed")]])]
    "/app/students.json" (jsonDumpRecords [[("id", "9"), ("name", "Zed")]])
    [[("id", "9"), ("name", "Zed")]]
    rfl (by decide) rfl (by decide) (by decide) (by decide)
    ⟨[("id", "9"), ("name", "Zed")], by decide, "age", by decide, by decide⟩

/-- C3 counterexample: on a JSON-bound store that demonstrably holds one
record with id 7, `delete_student "7"` does not delete it and does not
report a boolean result — it raises `KeyError` (the JSON text is parsed
with the CSV reader, whose records have no `id` column), so the claim does
not hold over every store. -/
theorem C3_delete_json_store_fails :
    read_json_file
        { headers := defaultHeaders, filename := some "/app/roster.json",
          fileType := some ".json" }
        [("/app/roster.json",
          jsonDumpRecords [[("id", "7"), ("name", "Bob"), ("age", "30"), ("grade", "B")]])]
      = .ok [[("id", "7"), ("name", "Bob"), ("age", "30"), ("grade", "B")]] ∧
    delete_student
        { headers := defaultHeaders, filename := some "/app/roster.json",
          fileType := some ".json" }
        [("/app/roster.json",
          jsonDumpRecords [[("id", "7"), ("name", "Bob"), ("age", "30"), ("grade", "B")]])]
        "7"
      = .err .keyErr
          { headers := defaultHeaders, filename := some "/app/roster.json",
            fileType := some ".json" }
          [("/app/roster.json",
            jsonDumpRecords [[("id", "7"), ("name", "Bob"), ("age", "30"), ("grade", "B")]])] := by
  constructor
  · decide
  · decide

/-- C3 amended (tabular store): on a CSV-bound store whose loaded records
all carry the schema's key set (the maintained invariant, with `id` a
schema column), `delete_student` removes every record whose id equals the
target — duplicates included — and rewrites exactly the remaining records
in order; when no record matches it returns the false flag and leaves the
file system, hence the backing file, byte-for-byte unchanged. -/
theorem C3_delete_csv_removes_all (s : Sms) (fs : Fs) (p content sid : String)
    (hfn : s.filename = some p)
    (hc : fsLookup fs p = some content)
    (hkeys : ∀ r ∈ dictReaderRecords content, keysOf r = s.headers)
    (hid : "id" ∈ s.headers) :
    ((∀ r ∈ dictReaderRecords content, rget r "id" ≠ some sid) →
       delete_student s fs sid = .ok false s fs) ∧
    ((∃ r ∈ dictReaderRecords content, rget r "id" = some sid) →
       delete_student s fs sid =
         .ok true s (fsSet fs p (csvWriteText (s.headers ::
           ((dictReaderRecords content).filter (fun r => !(rget r "id" == some sid))).map
             (fun r => s.headers.map (fun k => (rget r k).getD "")))))) := by
  have hsome : ∀ r ∈ dictReaderRecords content, (rget r "id").isSome = true := by
    intro r hr
    rw [rget_isSome_iff]
    rw [hkeys r hr]
    exact hid
  have hscan := delScan_spec sid (dictReaderRecords content) hsome
  constructor
  · intro hnone
    have hany : (dictReaderRecords content).any (fun r => rget r "id" == some sid) = false := by
      rw [List.any_eq_false]
      intro r hr
      simp only [beq_iff_eq]
      exact hnone r hr
    unfold delete_student openRead
    rw [hfn]
    simp [hc, hscan, hany]
  · intro hsome2
    obtain ⟨r1, hr1, hv1⟩ := hsome2
    have hany : (dictReaderRecords content).any (fun r => rget r "id" == some sid) = true :=
      List.any_eq_true.mpr ⟨r1, hr1, by simp [hv1]⟩
    have hkept : ∀ r ∈ (dictReaderRecords content).filter
        (fun r => !(rget r "id" == some sid)), ∀ kv ∈ r, kv.1 ∈ s.headers := by
      intro r hr kv hkv
      have hrm : r ∈ dictReaderRecords content := List.mem_of_mem_filter hr
      rw [← hkeys r hrm]
      exact List.mem_map_of_mem Prod.fst hkv
    have hw := writeRowsSeq_ok s.headers
      ((dictReaderRecords content).filter (fun r => !(rget r "id" == some sid))) hkept
    unfold delete_student openRead
    rw [hfn]
    simp [hc, hscan, hany, hw, csvWriteText, strConcat, List.map_map]
    rfl

/-- Witness for C3: deleting id 2 from a CSV store holding two records with
id 2 and one with id 3 removes both duplicates; deleting an absent id
leaves the store untouched. -/
theorem C3_delete_csv_removes_all_witness :
    delete_student
        { headers := defaultHeaders, filename := some "/app/students.csv",
          fileType := some ".csv" }
        [("/app/students.csv",
          csvWriteText [defaultHeaders, ["2", "Bob", "30", "B"],
            ["2", "Bob2", "31", "C"], ["3", "Cat", "22", "A"]])]
        "2"
      = .ok true
          { headers := defaultHeaders, filename := some "/app/students.csv",
            fileType := some ".csv" }
          (fsSet
            [("/app/students.csv",
              csvWriteText [defaultHeaders, ["2", "Bob", "30", "B"],
                ["2", "Bob2", "31", "C"], ["3", "Cat", "22", "A"]])]
            "/app/students.csv"
            (csvWriteText [defaultHeaders, ["3", "Cat", "22", "A"]])) ∧
    delete_student
        { headers := defaultHeaders, filename := some "/app/students.csv",
          fileType := some ".csv" }
        [("/app/students.csv",
          csvWriteText [defaultHeaders, ["2", "Bob", "30", "B"],
            ["2", "Bob2", "31", "C"], ["3", "Cat", "22", "A"]])]
        "9"
      = .ok false
          { headers := defaultHeaders, filename := some "/app/students.csv",
            fileType := some ".csv" }
          [("/app/students.csv",
            csvWriteText [defaultHeaders, ["2", "Bob", "30", "B"],
              ["2", "Bob2", "31", "C"], ["3", "Cat", "22", "A"]])] := by
  constructor
  · have h :=
      (C3_delete_csv_removes_all
        { headers := defaultHeaders, filename := some "/app/students.csv",
          fileType := some ".csv" }
        [("/app/students.csv",
          csvWriteText [defaultHeaders, ["2", "Bob", "30", "B"],
            ["2", "Bob2", "31", "C"], ["3", "Cat", "22", "A"]])]
        "/app/students.csv"
        (csvWriteText [defaultHeaders, ["2", "Bob", "30", "B"],
          ["2", "Bob2", "31", "C"], ["3", "Cat", "22", "A"]])
        "2" rfl (by decide) (by decide) (by decide)).2
        ⟨[("id", "2"), ("name", "Bob"), ("age", "30"), ("grade", "B")], by decide, by decide⟩
    rw [h]
    decide
  · exact
      (C3_delete_csv_removes_all
        { headers := defaultHeaders, filename := some "/app/students.csv",
          fileType := some ".csv" }
        [("/app/students.csv",
          csvWriteText [defaultHeaders, ["2", "Bob", "30", "B"],
            ["2", "Bob2", "31", "C"], ["3", "Cat", "22", "A"]])]
        "/app/students.csv"
        (csvWriteText [defaultHeaders, ["2", "Bob", "30", "B"],
          ["2", "Bob2", "31", "C"], ["3", "Cat", "22", "A"]])
        "9" rfl (by decide) (by decide) (by decide)).1 (by decide)

/-- Helper: a successful `read_json_file` load. -/
theorem read_json_file_ok (s : Sms) (fs : Fs) (p content : String) (objs : List Record)
    (hfn : s.filename = some p) (hc : fsLookup fs p = some content)
    (hcne : content ≠ "") (hparse : jsonParseRecords content = some objs) :
    read_json_file s fs = .ok objs := by
  unfold read_json_file openRead
  rw [hfn]
  simp [hc, hcne, hparse]

/-- C4 counterexample: on a JSON store, `update_student` with a patch key
outside the schema completes successfully and stores the extra key: the
rewritten file reloads to a record whose key set is not the schema. -/
theorem C4_update_json_adds_extra_key :
    update_student
        { headers := defaultHeaders, filename := some "/app/students.json",
          fileType := some ".json" }
        [("/app/students.json",
          jsonDumpRecords [[("id", "5"), ("name", "Eve"), ("age", "21"), ("grade", "B")]])]
        "5" [("hobby", "chess")]
      = .ok true
          { headers := defaultHeaders, filename := some "/app/students.json",
            fileType := some ".json" }
          (fsSet
            [("/app/students.json",
              jsonDumpRecords [[("id", "5"), ("name", "Eve"), ("age", "21"), ("grade", "B")]])]
            "/app/students.json"
            (jsonDumpRecords
              [[("id", "5"), ("name", "Eve"), ("age", "21"), ("grade", "B"),
                ("hobby", "chess")]])) ∧
    jsonParseRecords
        (jsonDumpRecords
          [[("id", "5"), ("name", "Eve"), ("age", "21"), ("grade", "B"), ("hobby", "chess")]])
      = some [[("id", "5"), ("name", "Eve"), ("age", "21"), ("grade", "B"), ("hobby", "chess")]] ∧
    keysOf [("id", "5"), ("name", "Eve"), ("age", "21"), ("grade", "B"), ("hobby", "chess")]
      ≠ defaultHeaders := by
  refine ⟨by decide, by decide, by decide⟩

/-- C4 amended: `update_student` never mutates the schema (or any other
instance state); and on a structured store whose loaded records all carry
the schema's key set, an update whose patch keys all lie in the schema
rewrites records that all still carry exactly the schema's key set.  (A
patch key outside the schema is, by the counterexample, merged into the
stored record instead.) -/
theorem C4_update_patch_keys (s : Sms) (fs : Fs) (p content sid : String)
    (patch : Record) (objs : List Record)
    (hfn : s.filename = some p)
    (hft : s.fileType = some ".json")
    (hc : fsLookup fs p = some content) (hcne : content ≠ "")
    (hparse : jsonParseRecords content = some objs)
    (hkeys : ∀ r ∈ objs, keysOf r = s.headers)
    (hid : "id" ∈ s.headers)
    (hpatch : ∀ kv ∈ patch, kv.1 ∈ s.headers) :
    (∀ fs2 : Fs, ∀ sid2 : String, ∀ patch2 : Record,
        (update_student s fs2 sid2 patch2).state = s) ∧
    update_student s fs sid patch =
      (if objs.any (fun r => rget r "id" == some sid) then
        .ok true s (fsSet fs p (jsonDumpRecords (objs.map (fun r =>
          if rget r "id" == some sid then dictUpdate r patch else r))))
       else .ok false s fs) ∧
    (∀ r ∈ objs.map (fun r => if rget r "id" == some sid then dictUpdate r patch else r),
        keysOf r = s.headers) := by
  refine ⟨?_, ?_, ?_⟩
  · intro fs2 sid2 patch2
    unfold update_student
    repeat' split
    all_goals rfl
  · have hread := read_json_file_ok s fs p content objs hfn hc hcne hparse
    have hsome : ∀ r ∈ objs, (rget r "id").isSome = true := by
      intro r hr
      rw [rget_isSome_iff, hkeys r hr]
      exact hid
    have hscan := updScan_spec sid patch objs hsome
    unfold update_student
    rw [hft]
    by_cases hany : objs.any (fun r => rget r "id" == some sid) = true
    · simp [hread, hscan, hany, hfn]
    · rw [Bool.not_eq_true] at hany
      simp [hread, hscan, hany, hfn]
  · intro r hr
    obtain ⟨r0, hr0, hr0e⟩ := List.mem_map.mp hr
    by_cases hmatch : (rget r0 "id" == some sid) = true
    · rw [hmatch] at hr0e
      simp only [if_true] at hr0e
      rw [← hr0e]
      rw [keysOf_dictUpdate patch r0 (fun kv hkv => by rw [hkeys r0 hr0]; exact hpatch kv hkv)]
      exact hkeys r0 hr0
    · rw [Bool.not_eq_true] at hmatch
      rw [hmatch] at hr0e
      simp only [Bool.false_eq_true, if_false] at hr0e
      rw [← hr0e]
      exact hkeys r0 hr0

/-- Witness for C4 at a concrete JSON store and an in-schema patch. -/
theorem C4_update_patch_keys_witness :
    update_student
        { headers := defaultHeaders, filename := some "/app/students.json",
          fileType := some ".json" }
        [("/app/students.json",
          jsonDumpRecords [[("id", "5"), ("name", "Eve"), ("age", "21"), ("grade", "B")]])]
        "5" [("name", "Eva")]
      = .ok true
          { headers := defaultHeaders, filename := some "/app/students.json",
            fileType := some ".json" }
          (fsSet
            [("/app/students.json",
              jsonDumpRecords [[("id", "5"), ("name", "Eve"), ("age", "21"), ("grade", "B")]])]
            "/app/students.json"
            (jsonDumpRecords
              [[("id", "5"), ("name", "Eva"), ("age", "21"), ("grade", "B")]])) ∧
    keysOf [("id", "5"), ("name", "Eva"), ("age", "21"), ("grade", "B")] = defaultHeaders := by
  have h :=
    C4_update_patch_keys
      { headers := defaultHeaders, filename := some "/app/students.json",
        fileType := some ".json" }
      [("/app/students.json",
        jsonDumpRecords [[("id", "5"), ("name", "Eve"), ("age", "21"), ("grade", "B")]])]
      "/app/students.json"
      (jsonDumpRecords [[("id", "5"), ("name", "Eve"), ("age", "21"), ("grade", "B")]])
      "5" [("name", "Eva")]
      [[("id", "5"), ("name", "Eve"), ("age", "21"), ("grade", "B")]]
      rfl rfl (by decide) (by decide) (by decide) (by decide) (by decide)
      (by decide)
  refine ⟨?_, by decide⟩
  rw [h.2.1]
  decide

/-- C2: the two on-disk encodings are not interchangeable in this code.
Starting from freshly created stores and adding the same record through
`add_student`, `delete_student` of that record's id succeeds on the
CSV-bound store but raises `KeyError` on the JSON-bound store and leaves
its file unchanged: `delete_student` (like `remove_column`) never branches
on `file_type` and always parses the bound file with the CSV reader, whose
rows of a JSON text have no `id` column. -/
theorem C2_delete_not_format_interchangeable :
    add_student
        { headers := defaultHeaders, filename := some "/app/students.csv",
          fileType := some ".csv" }
        [("/app/students.csv", csvWriteText [defaultHeaders])]
        [("id", "1"), ("name", "Ann"), ("age", "20"), ("grade", "A")]
      = .ok ()
          { headers := defaultHeaders, filename := some "/app/students.csv",
            fileType := some ".csv" }
          [("/app/students.csv", csvWriteText [defaultHeaders, ["1", "Ann", "20", "A"]])] ∧
    add_student
        { headers := defaultHeaders, filename := some "/app/students.json",
          fileType := some ".json" }
        [("/app/students.json", "[]")]
        [("id", "1"), ("name", "Ann"), ("age", "20"), ("grade", "A")]
      = .ok ()
          { headers := defaultHeaders, filename := some "/app/students.json",
            fileType := some ".json" }
          [("/app/students.json",
            jsonDumpRecords [[("id", "1"), ("name", "Ann"), ("age", "20"), ("grade", "A")]])] ∧
    delete_student
        { headers := defaultHeaders, filename := some "/app/students.csv",
          fileType := some ".csv" }
        [("/app/students.csv", csvWriteText [defaultHeaders, ["1", "Ann", "20", "A"]])]
        "1"
      = .ok true
          { headers := defaultHeaders, filename := some "/app/students.csv",
            fileType := some ".csv" }
          [("/app/students.csv", csvWriteText [defaultHeaders])] ∧
    delete_student
        { headers := defaultHeaders, filename := some "/app/students.json",
          fileType := some ".json" }
        [("/app/students.json",
          jsonDumpRecords [[("id", "1"), ("name", "Ann"), ("age", "20"), ("grade", "A")]])]
        "1"
      = .err .keyErr
          { headers := defaultHeaders, filename := some "/app/students.json",
            fileType := some ".json" }
          [("/app/students.json",
            jsonDumpRecords [[("id", "1"), ("name", "Ann"), ("age", "20"), ("grade", "A")]])] := by
  refine ⟨by decide, by decide, by decide, by decide⟩
